import Mathlib

/-!
# Feature-matching evaluation pipeline (AlgorithmEstimation.cpp, main.cpp)

Shallow embedding of the statistics code of the OpenCV features comparison tool.

Modelling conventions.

* A finite `float`/`double` datum is represented by the rational number it denotes;
  rounding is not modelled.  The only non-finite values the code under study can
  create from finite data are the results of its own divisions by zero; the result
  of a division is therefore a `Flt`, which has the IEEE special values.
* Container sizes are natural numbers.  The `size_t` subtraction of the rejection
  rate is modelled modulo `2 ^ 64`.  The `int` copies of sizes (`count`, `statIdx`,
  `pointsCount`) are modelled for containers of fewer than `2 ^ 31` elements, where
  the narrowing conversion is the identity.
* `assert` is checked: a failed assertion, like an out-of-range element access,
  ends the run abnormally, which is the result `none`.
* Routines of OpenCV and of the parts of the repository outside the two source
  files (feature extraction, matching, homography estimation, the clock, the
  transformation model) are parameters of the model.
-/

namespace FeaturesComparison

/-! ## Numbers -/

/-- Value of a floating-point division: a finite value or an IEEE special value. -/
inductive Flt where
  | finite (q : ℚ)
  | posInf
  | negInf
  | nan
  deriving DecidableEq

/-- Floating-point division `a / b` of two finite values (the zero divisor is `+0`). -/
def Flt.div (a b : ℚ) : Flt :=
  if b = 0 then
    if a = 0 then Flt.nan else if 0 < a then Flt.posInf else Flt.negInf
  else Flt.finite (a / b)

/-- Floating-point comparison `x <= y`; every comparison with a NaN is false. -/
def Flt.le : Flt → Flt → Bool
  | Flt.nan, _ => false
  | _, Flt.nan => false
  | Flt.finite a, Flt.finite b => decide (a ≤ b)
  | Flt.negInf, _ => true
  | _, Flt.posInf => true
  | _, _ => false

/-! ## Matches -/

/-- The OpenCV match record `cv::DMatch`. -/
structure DMatch where
  queryIdx : Int
  trainIdx : Int
  imgIdx : Int
  distance : ℚ
  deriving DecidableEq

/-- The source's `Matches`, a `std::vector<cv::DMatch>`. -/
abbrev Matches := List DMatch

/-- Loop of `ratioTest` (lines 25-37): `good` is the content of `goodMatches` so far. -/
def ratioTestLoop : List Matches → Flt → Matches → Option Matches
  | [], _, good => some good
  | m :: rest, maxRatio, good =>
    match m[0]?, m[1]? with
    | some best, some second =>
      if best.distance ≤ second.distance then
        let ratio := Flt.div best.distance second.distance
        if Flt.le ratio maxRatio then ratioTestLoop rest maxRatio (good ++ [best])
        else ratioTestLoop rest maxRatio good
      else none
    | _, _ => none

/-- The source's `ratioTest` (lines 21-38): `goodMatches` is cleared, then filled. -/
def ratioTest (knMatches : List Matches) (maxRatio : Flt) (goodMatches : Matches) :
    Option Matches :=
  let cleared : Matches := goodMatches.drop goodMatches.length
  ratioTestLoop knMatches maxRatio cleared

/-! ## Geometry and the numeric library -/

/-- The OpenCV point `cv::Point2f`. -/
structure Point2f where
  x : ℚ
  y : ℚ
  deriving DecidableEq

/-- The OpenCV key point; only its location `pt` is read by the code. -/
structure KeyPoint where
  pt : Point2f
  deriving DecidableEq

/-- The source's `Keypoints`, a `std::vector<cv::KeyPoint>`. -/
abbrev Keypoints := List KeyPoint

/-- A 3x3 matrix of doubles (`cv::Mat` holding a homography). -/
abbrev Mat3 := Matrix (Fin 3) (Fin 3) ℚ

/-- The OpenCV 4-tuple `cv::Scalar`. -/
structure Scalar where
  v0 : ℚ
  v1 : ℚ
  v2 : ℚ
  v3 : ℚ
  deriving DecidableEq

/-- Square roots of the C library, the one routine that is not rational:
`sqrtf` on `float` and `sqrt` on `double` (used by `cv::meanStdDev`). -/
structure Numerics where
  sqrtf : ℚ → ℚ
  sqrt : ℚ → ℚ

/-- Element access `v[i]` with an `int` index; out of range is an abnormal end. -/
def elemAt {α : Type} (v : List α) (i : Int) : Option α :=
  if 0 ≤ i then v[i.toNat]? else none

/-- OpenCV `cv::Mat::inv()` (LU method): the inverse, or the zero matrix when the
matrix is singular. -/
def matInv (m : Mat3) : Mat3 :=
  if m.det = 0 then 0 else (m.det)⁻¹ • m.adjugate

/-- OpenCV `cv::norm(m, cv::NORM_INF)`: the largest absolute value of an entry. -/
def normInf (m : Mat3) : ℚ :=
  ((List.finRange 3).flatMap fun i => (List.finRange 3).map fun j => |m i j|).foldl max 0

/-- OpenCV `cv::perspectiveTransform` on one point: the projective image of the
point, or the origin when the third homogeneous coordinate is zero. -/
def perspectivePoint (m : Mat3) (p : Point2f) : Point2f :=
  let w := m 2 0 * p.x + m 2 1 * p.y + m 2 2
  if w = 0 then ⟨0, 0⟩
  else ⟨(m 0 0 * p.x + m 0 1 * p.y + m 0 2) / w, (m 1 0 * p.x + m 1 1 * p.y + m 1 2) / w⟩

/-- OpenCV `cv::perspectiveTransform` on a vector of points. -/
def perspectiveTransform (pts : List Point2f) (m : Mat3) : List Point2f :=
  pts.map (perspectivePoint m)

/-- OpenCV `cv::meanStdDev` on a vector of floats: the mean and the population
standard deviation `sqrt (sum ((d - mean) ^ 2) / N)`. -/
def meanStdDev (lib : Numerics) (v : List ℚ) : ℚ × ℚ :=
  let n : ℚ := (v.length : ℚ)
  let mean := v.sum / n
  (mean, lib.sqrt ((v.map fun d => (d - mean) ^ 2).sum / n))

/-- Dereferenced `std::max_element`; on an empty range the dereference is invalid. -/
def maxElement : List ℚ → Option ℚ
  | [] => none
  | d :: ds => some (ds.foldl max d)

/-- Dereferenced `std::min_element`; on an empty range the dereference is invalid. -/
def minElement : List ℚ → Option ℚ
  | [] => none
  | d :: ds => some (ds.foldl min d)

/-! ## Match statistics -/

/-- The source's `computeMatchesDistanceStatistics` (lines 3-19): the returned flag
and the final values of the two reference parameters. -/
def computeMatchesDistanceStatistics (lib : Numerics) (matchList : Matches)
    (meanDistance stdDev : ℚ) : Bool × ℚ × ℚ :=
  if matchList.isEmpty then (false, meanDistance, stdDev)
  else
    let distances := matchList.map fun m => m.distance
    let stats := meanStdDev lib distances
    (false, stats.1, stats.2)

/-- First loop of `computeReprojectionError` (lines 284-288): the source and query
points of every match. -/
def gatherPoints (source query : Keypoints) :
    Matches → Option (List Point2f × List Point2f)
  | [] => some ([], [])
  | m :: rest =>
    match elemAt source m.trainIdx, elemAt query m.queryIdx with
    | some s, some q =>
      match gatherPoints source query rest with
      | some (srcPoints, dstPoints) => some (s.pt :: srcPoints, q.pt :: dstPoints)
      | none => none
    | _, _ => none

/-- Body of the second loop of `computeReprojectionError` (lines 293-297). -/
def pointDistance (lib : Numerics) (src dst : Point2f) : ℚ :=
  let vx := src.x - dst.x
  let vy := src.y - dst.y
  lib.sqrtf (vx * vx + vy * vy)

/-- The per-match reprojected distances of `computeReprojectionError`
(lines 284-298). -/
def reprojectedDistances (lib : Numerics) (source query : Keypoints) (matchList : Matches)
    (homography : Mat3) : Option (List ℚ) :=
  match gatherPoints source query matchList with
  | none => none
  | some (srcPoints, dstPoints) =>
    let moved := perspectiveTransform dstPoints (matInv homography)
    some (List.zipWith (pointDistance lib) srcPoints moved)

/-- The source's `computeReprojectionError` (lines 276-310). -/
def computeReprojectionError (lib : Numerics) (source query : Keypoints)
    (matchList : Matches) (homography : Mat3) : Option Scalar :=
  if matchList.length > 0 then
    match reprojectedDistances lib source query matchList homography with
    | none => none
    | some distances =>
      let stats := meanStdDev lib distances
      match maxElement distances, minElement distances with
      | some hi, some lo => some ⟨stats.1, stats.2, hi, lo⟩
      | _, _ => none
  else none

/-- Homography deviation of `performEstimation` (lines 132, 133 and 137). -/
def homographyDeviation (expectedHomography homography : Mat3) : ℚ :=
  let r := expectedHomography * matInv homography
  let error := normInf (1 - r)
  min error 1

/-! ## Run statistics -/

/-- Modelled from the spec: the record `FrameMatchingStatistics` is declared in a
header that is not among the source files; the fields are the ones the source
assigns, the three ratios being results of a division. -/
structure FrameMatchingStatistics where
  isValid : Bool
  argumentValue : ℚ
  totalKeypoints : Nat
  consumedTimeMs : ℚ
  percentOfMatches : Flt
  correctMatchesPercent : Flt
  ratioTestFalseLevel : Flt
  meanDistance : ℚ
  stdDevDistance : ℚ
  reprojectionError : Scalar
  homographyError : ℚ
  deriving DecidableEq

/-- The source's `SingleRunStatistics`, a `std::vector<FrameMatchingStatistics>`. -/
abbrev SingleRunStatistics := List FrameMatchingStatistics

/-- The call `v.resize(n)` of a `std::vector`, `d` being a value-initialised element. -/
def resize {α : Type} (v : List α) (n : Nat) (d : α) : List α :=
  v.take n ++ List.replicate (n - v.length) d

/-- Subtraction of two `size_t` values (both below `2 ^ 64`), which wraps. -/
def sizeSub (a b : Nat) : Nat :=
  (a + 2 ^ 64 - b) % 2 ^ 64

/-- The rejection rate of lines 106 and 222:
`(float)(knMatches.size() - matches.size()) / (float) knMatches.size()`. -/
def rejectionRate (knSize accepted : Nat) : Flt :=
  Flt.div ((sizeSub knSize accepted : ℕ) : ℚ) ((knSize : ℕ) : ℚ)

/-- Colour conversion codes passed to `cv::cvtColor`. -/
inductive ColorCode where
  | CV_BGR2GRAY
  | CV_BGRA2GRAY
  deriving DecidableEq

/-- Modelled from the spec: the algorithm adapter `FeatureAlgorithm` (section 4.2),
whose class is not among the source files.  `extractFeatures` yields its flag and
its two output parameters. -/
structure FeatureAlgorithm (Image Desc : Type) where
  name : String
  knMatchSupported : Bool
  extractFeatures : Image → Bool × Keypoints × Desc
  matchFeatures : Desc → Desc → Matches
  matchFeaturesKnn : Desc → Desc → Nat → List Matches

/-- Modelled from the spec: the transformation model `ImageTransformation`
(section 4.1), whose class is not among the source files. -/
structure ImageTransformation (Image : Type) where
  getX : List ℚ
  transform : ℚ → Image → Image
  getHomography : ℚ → Image → Mat3

/-- The remaining collaborators: OpenCV image routines, the clock (`getTickCount k`
is the k-th reading), the robust homography estimation
`ImageTransformation::findHomography` (its flag, inliers and matrix), the C
square roots, and a value-initialised statistics record. -/
structure Env (Image : Type) where
  channels : Image → Int
  cvtColor : Image → ColorCode → Image
  emptyMat : Image
  getTickCount : Nat → Int
  getTickFrequency : ℚ
  findHomography : Keypoints → Keypoints → Matches → Bool × Matches × Mat3
  lib : Numerics
  newStatistics : FrameMatchingStatistics

section Pipeline

variable {Image Desc : Type}

/-- Grey-level conversion of the source image (lines 54-60 and 179-185). -/
def toGray (env : Env Image) (sourceImage : Image) : Image :=
  if env.channels sourceImage = 3 then env.cvtColor sourceImage ColorCode.CV_BGR2GRAY
  else if env.channels sourceImage = 4 then env.cvtColor sourceImage ColorCode.CV_BGRA2GRAY
  else if env.channels sourceImage = 1 then sourceImage
  else env.emptyMat

/-- Matching stage shared by both drivers (lines 99-111 and 215-227): the record
and the content of `matches` afterwards. -/
def matchStage (alg : FeatureAlgorithm Image Desc) (sourceDesc resDesc : Desc)
    (s : FrameMatchingStatistics) (matchList : Matches) :
    Option (FrameMatchingStatistics × Matches) :=
  if alg.knMatchSupported then
    let knMatches := alg.matchFeaturesKnn sourceDesc resDesc 2
    match ratioTest knMatches (Flt.finite (3 / 4)) matchList with
    | none => none
    | some good =>
      some ({ s with ratioTestFalseLevel := rejectionRate knMatches.length good.length },
            good)
  else some (s, alg.matchFeatures sourceDesc resDesc)

/-- The "simple stat" assignments common to both drivers (lines 121-127 and
237-243). -/
def simpleStat (env : Env Image) (s : FrameMatchingStatistics) (homographyFound : Bool)
    (sourceKp resKpReal : Keypoints) (matchList correctMatches : Matches)
    (start stop : Int) : FrameMatchingStatistics :=
  let toMsMul : ℚ := 1000 / env.getTickFrequency
  { s with
    isValid := homographyFound
    totalKeypoints := resKpReal.length
    consumedTimeMs := ((stop - start : Int) : ℚ) * toMsMul
    percentOfMatches :=
      Flt.div (matchList.length : ℕ) (min sourceKp.length resKpReal.length : ℕ)
    correctMatchesPercent := Flt.div (correctMatches.length : ℕ) (matchList.length : ℕ) }

/-- Lines 113-164 of `performEstimation`: the rest of an iteration once the matches
are known; `start` and `stop` are the two clock readings. -/
def estimationTail (env : Env Image) (expectedHomography : Mat3)
    (sourceKp resKpReal : Keypoints) (s : FrameMatchingStatistics) (matched : Matches)
    (start stop : Int) : Option FrameMatchingStatistics :=
  let found := env.findHomography sourceKp resKpReal matched
  let homographyFound := found.1
  let correctMatches := found.2.1
  let homography := found.2.2
  let s3 := simpleStat env s homographyFound sourceKp resKpReal matched correctMatches
    start stop
  if homographyFound then
    let stats := computeMatchesDistanceStatistics env.lib correctMatches
      s3.meanDistance s3.stdDevDistance
    let s4 := { s3 with meanDistance := stats.2.1, stdDevDistance := stats.2.2 }
    match computeReprojectionError env.lib sourceKp resKpReal correctMatches homography with
    | none => none
    | some e =>
      some { s4 with
             reprojectionError := e
             homographyError := homographyDeviation expectedHomography homography }
  else some s3

/-- Body of the sweep of `performEstimation` (lines 80-164) for index `i`, argument
`arg`, record `s = stat[i]` and thread-private `matches`. -/
def estimationStep (env : Env Image) (alg : FeatureAlgorithm Image Desc)
    (transformation : ImageTransformation Image) (gray : Image) (sourceKp : Keypoints)
    (sourceDesc : Desc) (i : Nat) (arg : ℚ) (s : FrameMatchingStatistics)
    (matchList : Matches) : Option (FrameMatchingStatistics × Matches) :=
  let transformedImage := transformation.transform arg gray
  let expectedHomography := transformation.getHomography arg gray
  let start := env.getTickCount (2 * i)
  let ex := alg.extractFeatures transformedImage
  let resKpReal := ex.2.1
  let resDesc := ex.2.2
  let s1 := { s with isValid := decide (resKpReal.length > 0), argumentValue := arg }
  if !s1.isValid then some (s1, matchList)
  else
    match matchStage alg sourceDesc resDesc s1 matchList with
    | none => none
    | some (s2, matched) =>
      let stop := env.getTickCount (2 * i + 1)
      match estimationTail env expectedHomography sourceKp resKpReal s2 matched start stop with
      | none => none
      | some s' => some (s', matched)

/-- The sweep of `performEstimation` (lines 78-165) over the indices `idx`, run in
index order. -/
def estimationLoop (env : Env Image) (alg : FeatureAlgorithm Image Desc)
    (transformation : ImageTransformation Image) (gray : Image) (sourceKp : Keypoints)
    (sourceDesc : Desc) (x : List ℚ) :
    List Nat → SingleRunStatistics → Matches → Option SingleRunStatistics
  | [], stat, _ => some stat
  | i :: rest, stat, matchList =>
    match x[i]?, stat[i]? with
    | some arg, some s =>
      match estimationStep env alg transformation gray sourceKp sourceDesc i arg s
          matchList with
      | none => none
      | some (s', matched) =>
        estimationLoop env alg transformation gray sourceKp sourceDesc x rest
          (stat.set i s') matched
    | _, _ => none

/-- The source's `performEstimation` (lines 43-168): the returned flag and the
final content of `stat`. -/
def performEstimation (env : Env Image) (alg : FeatureAlgorithm Image Desc)
    (transformation : ImageTransformation Image) (sourceImage : Image)
    (stat : SingleRunStatistics) : Option (Bool × SingleRunStatistics) :=
  let gray := toGray env sourceImage
  let ex := alg.extractFeatures gray
  if !ex.1 then some (false, stat)
  else
    let sourceKp := ex.2.1
    let sourceDesc := ex.2.2
    let x := transformation.getX
    let stat1 := resize stat x.length env.newStatistics
    let count := x.length
    match estimationLoop env alg transformation gray sourceKp sourceDesc x
        (List.range count) stat1 [] with
    | none => none
    | some stat2 => some (true, stat2)

/-- Lines 229-272 of `performComparison`: the rest of the run once the matches are
known.  Drawing and writing the matches image (lines 252-270) is an output effect
and is not modelled. -/
def comparisonTail (env : Env Image) (sourceKp resKpReal : Keypoints)
    (s : FrameMatchingStatistics) (matched : Matches) (start stop : Int) :
    Option FrameMatchingStatistics :=
  let found := env.findHomography sourceKp resKpReal matched
  let homographyFound := found.1
  let correctMatches := found.2.1
  let homography := found.2.2
  let s3 := simpleStat env s homographyFound sourceKp resKpReal matched correctMatches
    start stop
  let stats := computeMatchesDistanceStatistics env.lib correctMatches
    s3.meanDistance s3.stdDevDistance
  let s4 := { s3 with meanDistance := stats.2.1, stdDevDistance := stats.2.2 }
  if homographyFound then
    match computeReprojectionError env.lib sourceKp resKpReal correctMatches homography with
    | none => none
    | some e => some { s4 with reprojectionError := e }
  else some s4

/-- Lines 202-272 of `performComparison` on the record `s = stat[statIdx]`: the
returned flag and the record afterwards. -/
def comparisonStep (env : Env Image) (alg : FeatureAlgorithm Image Desc)
    (testImage : Image) (sourceKp : Keypoints) (sourceDesc : Desc)
    (s : FrameMatchingStatistics) : Option (Bool × FrameMatchingStatistics) :=
  let transformedImage := testImage
  let start := env.getTickCount 0
  let ex := alg.extractFeatures transformedImage
  let resKpReal := ex.2.1
  let resDesc := ex.2.2
  let s1 := { s with isValid := decide (resKpReal.length > 0), argumentValue := 0 }
  if !s1.isValid then some (false, s1)
  else
    match matchStage alg sourceDesc resDesc s1 [] with
    | none => none
    | some (s2, matched) =>
      let stop := env.getTickCount 1
      match comparisonTail env sourceKp resKpReal s2 matched start stop with
      | none => none
      | some s' => some (true, s')

/-- The source's `performComparison` (lines 170-273): the returned flag and the
final content of `stat`; `imageName` only names the image file written. -/
def performComparison (env : Env Image) (alg : FeatureAlgorithm Image Desc)
    (sourceImage testImage : Image) (stat : SingleRunStatistics) (_imageName : String) :
    Option (Bool × SingleRunStatistics) :=
  let gray := toGray env sourceImage
  let ex := alg.extractFeatures gray
  if !ex.1 then some (false, stat)
  else
    let sourceKp := ex.2.1
    let sourceDesc := ex.2.2
    let statIdx := stat.length
    let stat1 := resize stat (statIdx + 1) env.newStatistics
    match stat1[statIdx]? with
    | none => none
    | some s =>
      match comparisonStep env alg testImage sourceKp sourceDesc s with
      | none => none
      | some (result, s') => some (result, stat1.set statIdx s')

end Pipeline

/-! ## The driver program -/

/-- Modelled from the spec: `CollectedStatistics` (its class is not among the source
files), the series of every (algorithm name, image identifier) pair, in insertion
order. -/
abbrev CollectedStatistics := List ((String × String) × SingleRunStatistics)

/-- Modelled from the spec: `CollectedStatistics::getStatistics`, the series kept
under a key, created empty by the access when the key is new. -/
def getStatistics (fullStat : CollectedStatistics) (algorithmName imageName : String) :
    SingleRunStatistics :=
  match fullStat.lookup (algorithmName, imageName) with
  | some stat => stat
  | none => []

/-- Write-back through the reference that `getStatistics` returned. -/
def putStatistics (fullStat : CollectedStatistics) (algorithmName imageName : String)
    (stat : SingleRunStatistics) : CollectedStatistics :=
  if (fullStat.lookup (algorithmName, imageName)).isSome then
    fullStat.map fun e => if e.1 = (algorithmName, imageName) then (e.1, stat) else e
  else fullStat ++ [((algorithmName, imageName), stat)]

/-- Image decoding: `cv::imread` by path and `cv::Mat::empty`. -/
structure ImageFiles (Image : Type) where
  imread : String → Image
  empty : Image → Bool

/-- A line written to `std::cout` by `main`. -/
inductive Output where
  | usage
  | cannotRead (path : String)
  | testing (name : String)
  | done
  deriving DecidableEq

/-- State of `main` in its image loop: the lines printed, the statistics, and the
log of the `performComparison` calls made (algorithm name, test image path). -/
structure MainState where
  out : List Output
  fullStat : CollectedStatistics
  comparisons : List (String × String)

section Driver

variable {Image Desc : Type}

/-- Inner loop of `main` (lines 124-133) over the algorithms. -/
def algorithmLoop (env : Env Image) (refImage testImage : Image) (testImagePath : String) :
    List (FeatureAlgorithm Image Desc) → MainState → Option MainState
  | [], st => some st
  | alg :: rest, st =>
    let stat := getStatistics st.fullStat alg.name testImagePath
    match performComparison env alg testImage refImage stat testImagePath with
    | none => none
    | some (_, stat') =>
      algorithmLoop env refImage testImage testImagePath rest
        { out := st.out ++ [Output.testing alg.name, Output.done]
          fullStat := putStatistics st.fullStat alg.name testImagePath stat'
          comparisons := st.comparisons ++ [(alg.name, testImagePath)] }

/-- Outer loop of `main` (lines 113-135) over the test image paths. -/
def imageLoop (env : Env Image) (files : ImageFiles Image)
    (algorithms : List (FeatureAlgorithm Image Desc)) (refImage : Image) :
    List String → MainState → Option MainState
  | [], st => some st
  | testImagePath :: rest, st =>
    let testImage := files.imread testImagePath
    let st1 :=
      if files.empty testImage then
        { st with out := st.out ++ [Output.cannotRead testImagePath] }
      else st
    match algorithmLoop env refImage testImage testImagePath algorithms st1 with
    | none => none
    | some st2 => imageLoop env files algorithms refImage rest st2

/-- The source's `main` up to the end of the image loop (lines 105-135), for the
list `algorithms` built at lines 46-56; the report files written afterwards are not
modelled.  `argv[1]` of a shorter argument vector is an abnormal end. -/
def main (env : Env Image) (files : ImageFiles Image)
    (algorithms : List (FeatureAlgorithm Image Desc)) (argv : List String) :
    Option MainState :=
  let argc := argv.length
  let out0 := if argc < 3 then [Output.usage] else []
  match argv[1]? with
  | none => none
  | some refImagePath =>
    let refImage := files.imread refImagePath
    imageLoop env files algorithms refImage (argv.drop 2)
      { out := out0, fullStat := [], comparisons := [] }

end Driver

/-! ## Contracts and derived notions used by the statements -/

section Contracts

variable {Image Desc : Type}

/-- Decision of the ratio test on one (best, second) pair. -/
def ratioAccepts (maxRatio : Flt) (p : DMatch × DMatch) : Bool :=
  Flt.le (Flt.div p.1.distance p.2.distance) maxRatio

/-- Index condition of `computeReprojectionError`: both indices of a match are in
range of their key point vectors. -/
def inRange (source query : Keypoints) (m : DMatch) : Prop :=
  (0 ≤ m.trainIdx ∧ m.trainIdx.toNat < source.length)
    ∧ (0 ≤ m.queryIdx ∧ m.queryIdx.toNat < query.length)

/-- Contract of the 2-nearest-neighbour matcher (data model of the spec): every
entry holds a best and a second match, ordered by distance. -/
def knnWellFormed (kn : List Matches) : Prop :=
  ∀ m ∈ kn, ∃ best second rest, m = best :: second :: rest ∧ best.distance ≤ second.distance

/-- The matches an iteration works with: the ratio-test output for a knn-capable
algorithm, the matcher output otherwise. -/
def stageMatches (alg : FeatureAlgorithm Image Desc) (sourceDesc resDesc : Desc) :
    Option Matches :=
  if alg.knMatchSupported then
    ratioTest (alg.matchFeaturesKnn sourceDesc resDesc 2) (Flt.finite (3 / 4)) []
  else some (alg.matchFeatures sourceDesc resDesc)

/-- Contract of the collaborators on one image: the knn matcher returns ordered
pairs, and a homography that is reported found comes with a non-empty inlier set
whose indices are in range. -/
def CollaboratorsBehave (env : Env Image) (alg : FeatureAlgorithm Image Desc)
    (sourceKp : Keypoints) (sourceDesc : Desc) (image : Image) : Prop :=
  0 < (alg.extractFeatures image).2.1.length →
    (alg.knMatchSupported = true →
        knnWellFormed (alg.matchFeaturesKnn sourceDesc (alg.extractFeatures image).2.2 2))
      ∧ ∀ ms, stageMatches alg sourceDesc (alg.extractFeatures image).2.2 = some ms →
          (env.findHomography sourceKp (alg.extractFeatures image).2.1 ms).1 = true →
          (env.findHomography sourceKp (alg.extractFeatures image).2.1 ms).2.1 ≠ []
            ∧ ∀ c ∈ (env.findHomography sourceKp (alg.extractFeatures image).2.1 ms).2.1,
                inRange sourceKp (alg.extractFeatures image).2.1 c

/-- Whether the run on `image` finds a homography. -/
def homographyFoundOn (env : Env Image) (alg : FeatureAlgorithm Image Desc)
    (sourceKp : Keypoints) (sourceDesc : Desc) (image : Image) : Bool :=
  match stageMatches alg sourceDesc (alg.extractFeatures image).2.2 with
  | some ms => (env.findHomography sourceKp (alg.extractFeatures image).2.1 ms).1
  | none => false

end Contracts

/-! ## A concrete setting -/

/-- A match of query index `q` and train index `t` at distance `d`. -/
def sampleMatch (q t : Int) (d : ℚ) : DMatch :=
  { queryIdx := q, trainIdx := t, imgIdx := 0, distance := d }

/-- A value-initialised statistics record. -/
def zeroStatistics : FrameMatchingStatistics :=
  { isValid := false
    argumentValue := 0
    totalKeypoints := 0
    consumedTimeMs := 0
    percentOfMatches := Flt.finite 0
    correctMatchesPercent := Flt.finite 0
    ratioTestFalseLevel := Flt.finite 0
    meanDistance := 0
    stdDevDistance := 0
    reprojectionError := ⟨0, 0, 0, 0⟩
    homographyError := 0 }

/-- A square root rounded down to the denominator of its argument; exact on the
squares of rationals. -/
def floorSqrt (q : ℚ) : ℚ :=
  (Nat.sqrt (q.num.toNat * q.den) : ℚ) / (q.den : ℚ)

/-- Square roots for the concrete setting. -/
def sampleLib : Numerics :=
  { sqrtf := floorSqrt, sqrt := floorSqrt }

/-- Key points found on every image with content in the concrete setting. -/
def sampleKeypoints : Keypoints :=
  [⟨⟨0, 0⟩⟩, ⟨⟨1, 0⟩⟩, ⟨⟨0, 3⟩⟩, ⟨⟨2, 2⟩⟩]

/-- An algorithm over images coded by numbers, 0 being the image without content:
it finds `sampleKeypoints` on every other image and returns fixed matcher outputs. -/
def sampleAlgorithm (name : String) (knn : Bool) (single : Matches) (pairs : List Matches) :
    FeatureAlgorithm Nat Unit :=
  { name := name
    knMatchSupported := knn
    extractFeatures := fun img => if img = 0 then (false, [], ()) else (true, sampleKeypoints, ())
    matchFeatures := fun _ _ => single
    matchFeaturesKnn := fun _ _ _ => pairs }

/-- Collaborators of the concrete setting: single-channel images, a clock that
advances one tick (one millisecond) per reading, and a homography estimation that
reports the identity, with every match an inlier, when `found` is set and there is
a match. -/
def sampleEnv (found : Bool) : Env Nat :=
  { channels := fun _ => 1
    cvtColor := fun img _ => img
    emptyMat := 0
    getTickCount := fun k => (k : Int)
    getTickFrequency := 1000
    findHomography := fun _ _ ms => (found && !ms.isEmpty, ms, 1)
    lib := sampleLib
    newStatistics := zeroStatistics }

/-- A transformation whose value 0 keeps the image and whose other values wipe it. -/
def sampleTransformation (xs : List ℚ) : ImageTransformation Nat :=
  { getX := xs
    transform := fun arg img => if arg = 0 then img else 0
    getHomography := fun _ _ => 1 }

/-- Image files of the concrete setting: `ref.png` decodes to image 1, `good.png` to
image 2, every other path fails to decode. -/
def sampleFiles : ImageFiles Nat :=
  { imread := fun path =>
      if path = "ref.png" then 1 else if path = "good.png" then 2 else 0
    empty := fun img => decide (img = 0) }

/-! ## Ratio test: lemmas -/

theorem ratioTestLoop_pairs (pairs : List (DMatch × DMatch)) (tau : Flt) (good : Matches)
    (h : ∀ p ∈ pairs, p.1.distance ≤ p.2.distance) :
    ratioTestLoop (pairs.map fun p => [p.1, p.2]) tau good
      = some (good ++ (pairs.filter (ratioAccepts tau)).map Prod.fst) := by
  induction pairs generalizing good with
  | nil => simp [ratioTestLoop]
  | cons p rest ih =>
    have hp : p.1.distance ≤ p.2.distance := h p (List.mem_cons_self _ _)
    have hrest : ∀ q ∈ rest, q.1.distance ≤ q.2.distance :=
      fun q hq => h q (List.mem_cons_of_mem _ hq)
    by_cases hacc : ratioAccepts tau p = true
    · have hacc2 : Flt.le (Flt.div p.1.distance p.2.distance) tau = true := hacc
      simp [ratioTestLoop, hp, hacc, hacc2, ih _ hrest, List.filter_cons]
    · have hacc2 : Flt.le (Flt.div p.1.distance p.2.distance) tau = false := by
        simpa [ratioAccepts] using hacc
      have hacc3 : ratioAccepts tau p = false := by simpa using hacc
      simp [ratioTestLoop, hp, hacc2, hacc3, ih _ hrest, List.filter_cons]

/-! ## Summary statistics: lemmas -/

theorem le_foldl_max (l : List ℚ) (a : ℚ) : a ≤ l.foldl max a := by
  induction l generalizing a with
  | nil => simp
  | cons b rest ih => exact le_trans (le_max_left a b) (ih (max a b))

theorem mem_le_foldl_max (l : List ℚ) (a b : ℚ) (hb : b ∈ l) : b ≤ l.foldl max a := by
  induction l generalizing a with
  | nil => simp at hb
  | cons c rest ih =>
    rcases List.mem_cons.mp hb with h | h
    · subst h
      exact le_trans (le_max_right a b) (le_foldl_max rest (max a b))
    · exact ih (max a c) h

theorem foldl_min_le (l : List ℚ) (a : ℚ) : l.foldl min a ≤ a := by
  induction l generalizing a with
  | nil => simp
  | cons b rest ih => exact le_trans (ih (min a b)) (min_le_left a b)

theorem foldl_min_le_mem (l : List ℚ) (a b : ℚ) (hb : b ∈ l) : l.foldl min a ≤ b := by
  induction l generalizing a with
  | nil => simp at hb
  | cons c rest ih =>
    rcases List.mem_cons.mp hb with h | h
    · subst h
      exact le_trans (foldl_min_le rest (min a b)) (min_le_right a b)
    · exact ih (min a c) h

theorem length_mul_le_sum (l : List ℚ) (lo : ℚ) (h : ∀ a ∈ l, lo ≤ a) :
    (l.length : ℚ) * lo ≤ l.sum := by
  induction l with
  | nil => simp
  | cons b rest ih =>
    have h1 : lo ≤ b := h b (List.mem_cons_self _ _)
    have h2 := ih fun a ha => h a (List.mem_cons_of_mem _ ha)
    simp only [List.length_cons, List.sum_cons]
    push_cast
    linarith

theorem sum_le_length_mul (l : List ℚ) (hi : ℚ) (h : ∀ a ∈ l, a ≤ hi) :
    l.sum ≤ (l.length : ℚ) * hi := by
  induction l with
  | nil => simp
  | cons b rest ih =>
    have h1 : b ≤ hi := h b (List.mem_cons_self _ _)
    have h2 := ih fun a ha => h a (List.mem_cons_of_mem _ ha)
    simp only [List.length_cons, List.sum_cons]
    push_cast
    linarith

theorem sum_sq_nonneg (l : List ℚ) (c : ℚ) : 0 ≤ (l.map fun d => (d - c) ^ 2).sum := by
  apply List.sum_nonneg
  intro a ha
  rcases List.mem_map.mp ha with ⟨d, _, rfl⟩
  positivity

/-- Mean, deviation and extremes of a non-empty list of distances. -/
theorem summary_of_cons (lib : Numerics) (d : ℚ) (ds : List ℚ)
    (hsqrt : ∀ q, 0 ≤ q → 0 ≤ lib.sqrt q) :
    ds.foldl min d ≤ (meanStdDev lib (d :: ds)).1
      ∧ (meanStdDev lib (d :: ds)).1 ≤ ds.foldl max d
      ∧ 0 ≤ (meanStdDev lib (d :: ds)).2 := by
  have hn : (0 : ℚ) < ((d :: ds).length : ℚ) := by
    simp only [List.length_cons]
    push_cast
    positivity
  have hlo : ∀ a ∈ d :: ds, ds.foldl min d ≤ a := by
    intro a ha
    rcases List.mem_cons.mp ha with h | h
    · subst h
      exact foldl_min_le ds a
    · exact foldl_min_le_mem ds d a h
  have hhi : ∀ a ∈ d :: ds, a ≤ ds.foldl max d := by
    intro a ha
    rcases List.mem_cons.mp ha with h | h
    · subst h
      exact le_foldl_max ds a
    · exact mem_le_foldl_max ds d a h
  refine ⟨?_, ?_, ?_⟩
  · show ds.foldl min d ≤ (d :: ds).sum / ((d :: ds).length : ℚ)
    rw [le_div_iff₀ hn]
    have := length_mul_le_sum (d :: ds) _ hlo
    linarith
  · show (d :: ds).sum / ((d :: ds).length : ℚ) ≤ ds.foldl max d
    rw [div_le_iff₀ hn]
    have := sum_le_length_mul (d :: ds) _ hhi
    linarith
  · show 0 ≤ lib.sqrt _
    apply hsqrt
    exact div_nonneg (sum_sq_nonneg _ _) (le_of_lt hn)

theorem elemAt_inRange {α : Type} (v : List α) (i : Int) (h0 : 0 ≤ i)
    (h1 : i.toNat < v.length) : ∃ a, elemAt v i = some a := by
  refine ⟨v[i.toNat], ?_⟩
  simp [elemAt, h0, List.getElem?_eq_getElem h1]

theorem gatherPoints_inRange (source query : Keypoints) (matchList : Matches)
    (h : ∀ m ∈ matchList, inRange source query m) :
    ∃ srcPoints dstPoints, gatherPoints source query matchList = some (srcPoints, dstPoints)
      ∧ srcPoints.length = matchList.length ∧ dstPoints.length = matchList.length := by
  induction matchList with
  | nil => exact ⟨[], [], rfl, rfl, rfl⟩
  | cons m rest ih =>
    obtain ⟨sp, dp, hg, hs, hd⟩ := ih fun q hq => h q (List.mem_cons_of_mem _ hq)
    obtain ⟨⟨a0, a1⟩, ⟨b0, b1⟩⟩ := h m (List.mem_cons_self _ _)
    obtain ⟨s, hs'⟩ := elemAt_inRange source m.trainIdx a0 a1
    obtain ⟨q, hq'⟩ := elemAt_inRange query m.queryIdx b0 b1
    refine ⟨s.pt :: sp, q.pt :: dp, ?_, ?_, ?_⟩
    · simp [gatherPoints, hs', hq', hg]
    · simp [hs]
    · simp [hd]

theorem reprojectedDistances_inRange (lib : Numerics) (source query : Keypoints)
    (matchList : Matches) (homography : Mat3)
    (h : ∀ m ∈ matchList, inRange source query m) :
    ∃ distances, reprojectedDistances lib source query matchList homography = some distances
      ∧ distances.length = matchList.length := by
  obtain ⟨sp, dp, hg, hs, hd⟩ := gatherPoints_inRange source query matchList h
  refine ⟨List.zipWith (pointDistance lib) sp
    (perspectiveTransform dp (matInv homography)), ?_, ?_⟩
  · simp only [reprojectedDistances, hg]
  · simp [perspectiveTransform, hs, hd]

theorem computeReprojectionError_of_distances (lib : Numerics) (source query : Keypoints)
    (matchList : Matches) (homography : Mat3) (d : ℚ) (ds : List ℚ) (hne : matchList ≠ [])
    (h : reprojectedDistances lib source query matchList homography = some (d :: ds)) :
    computeReprojectionError lib source query matchList homography
      = some ⟨(meanStdDev lib (d :: ds)).1, (meanStdDev lib (d :: ds)).2,
              ds.foldl max d, ds.foldl min d⟩ := by
  have hpos : matchList.length > 0 := List.length_pos.mpr hne
  simp [computeReprojectionError, hpos, h, maxElement, minElement]

section PipelineLemmas

variable {Image Desc : Type}

theorem ratioTest_prior (kn : List Matches) (tau : Flt) (prior : Matches) :
    ratioTest kn tau prior = ratioTest kn tau [] := by
  simp [ratioTest]

theorem ratioTestLoop_wellFormed (kn : List Matches) (tau : Flt) (good : Matches)
    (h : knnWellFormed kn) :
    ∃ out, ratioTestLoop kn tau good = some out ∧ out.length ≤ good.length + kn.length := by
  induction kn generalizing good with
  | nil => exact ⟨good, rfl, by simp⟩
  | cons m rest ih =>
    obtain ⟨best, second, tl, hm, hle⟩ := h m (List.mem_cons_self _ _)
    have hrest : knnWellFormed rest := fun q hq => h q (List.mem_cons_of_mem _ hq)
    subst hm
    by_cases hacc : Flt.le (Flt.div best.distance second.distance) tau = true
    · obtain ⟨out, ho, hl⟩ := ih (good ++ [best]) hrest
      refine ⟨out, ?_, ?_⟩
      · simp [ratioTestLoop, hle, hacc, ho]
      · simp at hl ⊢
        omega
    · obtain ⟨out, ho, hl⟩ := ih good hrest
      refine ⟨out, ?_, ?_⟩
      · simp [ratioTestLoop, hle, hacc, ho]
      · simp at hl ⊢
        omega

theorem ratioTest_wellFormed (kn : List Matches) (tau : Flt) (prior : Matches)
    (h : knnWellFormed kn) :
    ∃ out, ratioTest kn tau prior = some out ∧ out.length ≤ kn.length := by
  obtain ⟨out, ho, hl⟩ := ratioTestLoop_wellFormed kn tau [] h
  refine ⟨out, ?_, by simpa using hl⟩
  simpa [ratioTest] using ho

/-- The record written by the matching stage. -/
theorem matchStage_eq (alg : FeatureAlgorithm Image Desc) (sourceDesc resDesc : Desc)
    (s : FrameMatchingStatistics) (prior : Matches) :
    matchStage alg sourceDesc resDesc s prior
      = match stageMatches alg sourceDesc resDesc with
        | none => none
        | some good =>
          some (if alg.knMatchSupported then
                  { s with ratioTestFalseLevel :=
                      (rejectionRate (alg.matchFeaturesKnn sourceDesc resDesc 2).length
                        good.length) }
                else s, good) := by
  unfold matchStage stageMatches
  by_cases hk : alg.knMatchSupported = true
  · simp only [hk, if_true]
    rw [ratioTest_prior]
  · simp [hk]

theorem computeReprojectionError_total (lib : Numerics) (source query : Keypoints)
    (matchList : Matches) (homography : Mat3) (hne : matchList ≠ [])
    (hidx : ∀ m ∈ matchList, inRange source query m) :
    ∃ e, computeReprojectionError lib source query matchList homography = some e := by
  obtain ⟨distances, hd, hlen⟩ :=
    reprojectedDistances_inRange lib source query matchList homography hidx
  cases distances with
  | nil =>
    have : matchList.length = 0 := by simpa using hlen.symm
    exact absurd (List.length_eq_zero.mp this) hne
  | cons d ds =>
    exact ⟨_, computeReprojectionError_of_distances lib source query matchList
      homography d ds hne hd⟩

theorem stageMatches_total (alg : FeatureAlgorithm Image Desc) (sourceDesc resDesc : Desc)
    (h : alg.knMatchSupported = true →
      knnWellFormed (alg.matchFeaturesKnn sourceDesc resDesc 2)) :
    ∃ ms, stageMatches alg sourceDesc resDesc = some ms := by
  unfold stageMatches
  by_cases hk : alg.knMatchSupported = true
  · obtain ⟨out, ho, _⟩ := ratioTest_wellFormed _ (Flt.finite (3 / 4)) [] (h hk)
    exact ⟨out, by simp [hk, ho]⟩
  · exact ⟨alg.matchFeatures sourceDesc resDesc, by simp [hk]⟩

/-- Fields written by lines 113-164 of `performEstimation`. -/
theorem estimationTail_fields (env : Env Image) (expected : Mat3)
    (sourceKp resKp : Keypoints) (s s' : FrameMatchingStatistics) (matched : Matches)
    (start stop : Int)
    (h : estimationTail env expected sourceKp resKp s matched start stop = some s') :
    s'.isValid = (env.findHomography sourceKp resKp matched).1
      ∧ s'.argumentValue = s.argumentValue
      ∧ s'.totalKeypoints = resKp.length
      ∧ s'.consumedTimeMs = ((stop - start : Int) : ℚ) * (1000 / env.getTickFrequency)
      ∧ s'.percentOfMatches
          = Flt.div ((matched.length : ℕ) : ℚ) ((min sourceKp.length resKp.length : ℕ) : ℚ)
      ∧ s'.correctMatchesPercent
          = Flt.div (((env.findHomography sourceKp resKp matched).2.1.length : ℕ) : ℚ)
              ((matched.length : ℕ) : ℚ)
      ∧ s'.ratioTestFalseLevel = s.ratioTestFalseLevel
      ∧ ((env.findHomography sourceKp resKp matched).1 = false →
          s'.meanDistance = s.meanDistance ∧ s'.stdDevDistance = s.stdDevDistance
            ∧ s'.reprojectionError = s.reprojectionError
            ∧ s'.homographyError = s.homographyError)
      ∧ ((env.findHomography sourceKp resKp matched).1 = true →
          s'.homographyError
            = homographyDeviation expected (env.findHomography sourceKp resKp matched).2.2) := by
  unfold estimationTail at h
  by_cases hf : (env.findHomography sourceKp resKp matched).1 = true
  · simp only [hf, if_true] at h
    split at h
    · simp at h
    · simp only [Option.some.injEq] at h
      subst h
      simp [simpleStat, hf]
  · have hf' : (env.findHomography sourceKp resKp matched).1 = false := by simpa using hf
    simp only [hf', Bool.false_eq_true, if_false, Option.some.injEq] at h
    subst h
    simp [simpleStat, hf']

theorem estimationTail_total (env : Env Image) (expected : Mat3)
    (sourceKp resKp : Keypoints) (s : FrameMatchingStatistics) (matched : Matches)
    (start stop : Int)
    (h : (env.findHomography sourceKp resKp matched).1 = true →
      (env.findHomography sourceKp resKp matched).2.1 ≠ []
        ∧ ∀ c ∈ (env.findHomography sourceKp resKp matched).2.1, inRange sourceKp resKp c) :
    ∃ s', estimationTail env expected sourceKp resKp s matched start stop = some s' := by
  unfold estimationTail
  by_cases hf : (env.findHomography sourceKp resKp matched).1 = true
  · obtain ⟨hne, hidx⟩ := h hf
    obtain ⟨e, he⟩ := computeReprojectionError_total env.lib sourceKp resKp _
      (env.findHomography sourceKp resKp matched).2.2 hne hidx
    simp [hf, he]
  · simp [hf]

/-- Fields written by lines 229-272 of `performComparison`. -/
theorem comparisonTail_fields (env : Env Image) (sourceKp resKp : Keypoints)
    (s s' : FrameMatchingStatistics) (matched : Matches) (start stop : Int)
    (h : comparisonTail env sourceKp resKp s matched start stop = some s') :
    s'.isValid = (env.findHomography sourceKp resKp matched).1
      ∧ s'.argumentValue = s.argumentValue
      ∧ s'.correctMatchesPercent
          = Flt.div (((env.findHomography sourceKp resKp matched).2.1.length : ℕ) : ℚ)
              ((matched.length : ℕ) : ℚ)
      ∧ s'.ratioTestFalseLevel = s.ratioTestFalseLevel := by
  unfold comparisonTail at h
  by_cases hf : (env.findHomography sourceKp resKp matched).1 = true
  · simp only [hf, if_true] at h
    split at h
    · simp at h
    · simp only [Option.some.injEq] at h
      subst h
      simp [simpleStat, hf]
  · have hf' : (env.findHomography sourceKp resKp matched).1 = false := by simpa using hf
    simp only [hf', Bool.false_eq_true, if_false, Option.some.injEq] at h
    subst h
    simp [simpleStat, hf']

theorem comparisonTail_total (env : Env Image) (sourceKp resKp : Keypoints)
    (s : FrameMatchingStatistics) (matched : Matches) (start stop : Int)
    (h : (env.findHomography sourceKp resKp matched).1 = true →
      (env.findHomography sourceKp resKp matched).2.1 ≠ []
        ∧ ∀ c ∈ (env.findHomography sourceKp resKp matched).2.1, inRange sourceKp resKp c) :
    ∃ s', comparisonTail env sourceKp resKp s matched start stop = some s' := by
  unfold comparisonTail
  by_cases hf : (env.findHomography sourceKp resKp matched).1 = true
  · obtain ⟨hne, hidx⟩ := h hf
    obtain ⟨e, he⟩ := computeReprojectionError_total env.lib sourceKp resKp _
      (env.findHomography sourceKp resKp matched).2.2 hne hidx
    simp [hf, he]
  · simp [hf]

/-- An iteration on a transformed image without key points (lines 93-97). -/
theorem estimationStep_noKeypoints (env : Env Image) (alg : FeatureAlgorithm Image Desc)
    (transformation : ImageTransformation Image) (gray : Image) (sourceKp : Keypoints)
    (sourceDesc : Desc) (i : Nat) (arg : ℚ) (s : FrameMatchingStatistics)
    (matchList : Matches)
    (hk : (alg.extractFeatures (transformation.transform arg gray)).2.1.length = 0) :
    estimationStep env alg transformation gray sourceKp sourceDesc i arg s matchList
      = some ({ s with isValid := false, argumentValue := arg }, matchList) := by
  simp [estimationStep, hk]

/-- An iteration on a transformed image with key points runs the matching stage and
then lines 113-164. -/
theorem estimationStep_inv (env : Env Image) (alg : FeatureAlgorithm Image Desc)
    (transformation : ImageTransformation Image) (gray : Image) (sourceKp : Keypoints)
    (sourceDesc : Desc) (i : Nat) (arg : ℚ) (s s' : FrameMatchingStatistics)
    (matchList m : Matches)
    (hk : 0 < (alg.extractFeatures (transformation.transform arg gray)).2.1.length)
    (h : estimationStep env alg transformation gray sourceKp sourceDesc i arg s matchList
          = some (s', m)) :
    ∃ s2, matchStage alg sourceDesc
              (alg.extractFeatures (transformation.transform arg gray)).2.2
              { s with isValid := true, argumentValue := arg } matchList = some (s2, m)
      ∧ estimationTail env (transformation.getHomography arg gray) sourceKp
          (alg.extractFeatures (transformation.transform arg gray)).2.1 s2 m
          (env.getTickCount (2 * i)) (env.getTickCount (2 * i + 1)) = some s' := by
  unfold estimationStep at h
  simp only [gt_iff_lt, hk, decide_True, Bool.not_true, Bool.false_eq_true, if_false] at h
  split at h
  · simp at h
  · rename_i s2 matched hms
    split at h
    · simp at h
    · rename_i s'' ht
      simp only [Option.some.injEq, Prod.mk.injEq] at h
      obtain ⟨h1, h2⟩ := h
      subst h1 h2
      exact ⟨s2, hms, ht⟩

theorem estimationStep_total (env : Env Image) (alg : FeatureAlgorithm Image Desc)
    (transformation : ImageTransformation Image) (gray : Image) (sourceKp : Keypoints)
    (sourceDesc : Desc) (i : Nat) (arg : ℚ) (s : FrameMatchingStatistics)
    (matchList : Matches)
    (hc : CollaboratorsBehave env alg sourceKp sourceDesc (transformation.transform arg gray)) :
    ∃ s' m, estimationStep env alg transformation gray sourceKp sourceDesc i arg s matchList
        = some (s', m)
      ∧ s'.argumentValue = arg
      ∧ s'.isValid
          = (decide (0 < (alg.extractFeatures (transformation.transform arg gray)).2.1.length)
              && homographyFoundOn env alg sourceKp sourceDesc
                  (transformation.transform arg gray)) := by
  by_cases hk : 0 < (alg.extractFeatures (transformation.transform arg gray)).2.1.length
  · obtain ⟨hknn, hfound⟩ := hc hk
    obtain ⟨ms, hms⟩ := stageMatches_total alg sourceDesc
      (alg.extractFeatures (transformation.transform arg gray)).2.2 hknn
    obtain ⟨s', hs'⟩ := estimationTail_total env (transformation.getHomography arg gray)
      sourceKp (alg.extractFeatures (transformation.transform arg gray)).2.1
      (if alg.knMatchSupported then
        { ({ s with isValid := true, argumentValue := arg } : FrameMatchingStatistics) with
          ratioTestFalseLevel :=
            (rejectionRate (alg.matchFeaturesKnn sourceDesc
              (alg.extractFeatures (transformation.transform arg gray)).2.2 2).length
              ms.length) }
       else { s with isValid := true, argumentValue := arg })
      ms (env.getTickCount (2 * i)) (env.getTickCount (2 * i + 1)) (hfound ms hms)
    obtain ⟨h1, h2, -⟩ := estimationTail_fields _ _ _ _ _ _ _ _ _ hs'
    refine ⟨s', ms, ?_, ?_, ?_⟩
    · unfold estimationStep
      simp only [gt_iff_lt, hk, decide_True, Bool.not_true, Bool.false_eq_true, if_false,
        matchStage_eq, hms, hs']
    · rw [h2]
      split <;> rfl
    · rw [h1]
      simp [hk, homographyFoundOn, hms]
  · have hk0 : (alg.extractFeatures (transformation.transform arg gray)).2.1.length = 0 := by
      omega
    refine ⟨_, _, estimationStep_noKeypoints env alg transformation gray sourceKp sourceDesc
      i arg s matchList hk0, rfl, ?_⟩
    simp [hk0]

theorem length_resize {α : Type} (v : List α) (n : Nat) (d : α) :
    (resize v n d).length = n := by
  simp [resize]
  omega

theorem resize_succ_length {α : Type} (v : List α) (d : α) :
    resize v (v.length + 1) d = v ++ [d] := by
  simp [resize, List.take_of_length_le]

/-- The sweep over distinct in-range indices: it ends normally, keeps the length of
`stat`, touches only the swept indices and leaves there the record of the index. -/
theorem estimationLoop_spec (env : Env Image) (alg : FeatureAlgorithm Image Desc)
    (transformation : ImageTransformation Image) (gray : Image) (sourceKp : Keypoints)
    (sourceDesc : Desc) (x : List ℚ)
    (hc : ∀ arg ∈ x, CollaboratorsBehave env alg sourceKp sourceDesc
      (transformation.transform arg gray))
    (idx : List Nat) (stat : SingleRunStatistics) (matchList : Matches)
    (hlen : stat.length = x.length) (hidx : ∀ i ∈ idx, i < x.length) (hnd : idx.Nodup) :
    ∃ out, estimationLoop env alg transformation gray sourceKp sourceDesc x idx stat matchList
        = some out
      ∧ out.length = x.length
      ∧ (∀ i, i ∉ idx → out[i]? = stat[i]?)
      ∧ (∀ i ∈ idx, ∀ arg, x[i]? = some arg → ∃ r, out[i]? = some r
          ∧ r.argumentValue = arg
          ∧ r.isValid
              = (decide (0 < (alg.extractFeatures
                    (transformation.transform arg gray)).2.1.length)
                  && homographyFoundOn env alg sourceKp sourceDesc
                      (transformation.transform arg gray))) := by
  induction idx generalizing stat matchList with
  | nil => exact ⟨stat, rfl, hlen, fun _ _ => rfl, fun i hi => absurd hi (List.not_mem_nil i)⟩
  | cons i rest ih =>
    have hi : i < x.length := hidx i (List.mem_cons_self _ _)
    have hxi : x[i]? = some x[i] := List.getElem?_eq_getElem hi
    have hi2 : i < stat.length := hlen ▸ hi
    have hsi : stat[i]? = some stat[i] := List.getElem?_eq_getElem hi2
    obtain ⟨s', m, hstep, harg, hvalid⟩ := estimationStep_total env alg transformation gray
      sourceKp sourceDesc i x[i] stat[i] matchList
      (hc x[i] (List.getElem_mem _))
    have hnd' : rest.Nodup := (List.nodup_cons.mp hnd).2
    have hnotin : i ∉ rest := (List.nodup_cons.mp hnd).1
    obtain ⟨out, hout, hl, hkeep, hrec⟩ := ih (stat.set i s') m (by simpa using hlen)
      (fun j hj => hidx j (List.mem_cons_of_mem _ hj)) hnd'
    refine ⟨out, ?_, hl, ?_, ?_⟩
    · simp only [estimationLoop, hxi, hsi, hstep, hout]
    · intro j hj
      have hji : j ≠ i := fun h => hj (h ▸ List.mem_cons_self _ _)
      have hjr : j ∉ rest := fun h => hj (List.mem_cons_of_mem _ h)
      rw [hkeep j hjr, List.getElem?_set_ne (Ne.symm hji)]
    · intro j hj arg hxj
      rcases List.mem_cons.mp hj with h | h
      · subst h
        have harg' : arg = x[j] := by
          rw [hxi] at hxj
          exact (Option.some.inj hxj).symm
        subst harg'
        refine ⟨s', ?_, harg, hvalid⟩
        rw [hkeep j hnotin]
        simp [List.getElem?_set, hlen, hi]
      · exact hrec j h arg hxj

/-- The matching stage writes `ratioTestFalseLevel` at most: for a knn-capable
algorithm the rejection rate of the ratio test, nothing otherwise. -/
theorem matchStage_fields (alg : FeatureAlgorithm Image Desc) (sourceDesc resDesc : Desc)
    (s s2 : FrameMatchingStatistics) (prior m : Matches)
    (h : matchStage alg sourceDesc resDesc s prior = some (s2, m)) :
    stageMatches alg sourceDesc resDesc = some m
      ∧ s2.isValid = s.isValid ∧ s2.argumentValue = s.argumentValue
      ∧ s2.meanDistance = s.meanDistance ∧ s2.stdDevDistance = s.stdDevDistance
      ∧ s2.reprojectionError = s.reprojectionError
      ∧ s2.homographyError = s.homographyError
      ∧ (alg.knMatchSupported = false → s2 = s)
      ∧ (alg.knMatchSupported = true →
          ratioTest (alg.matchFeaturesKnn sourceDesc resDesc 2) (Flt.finite (3 / 4)) prior
              = some m
            ∧ s2.ratioTestFalseLevel
              = rejectionRate (alg.matchFeaturesKnn sourceDesc resDesc 2).length m.length) := by
  rw [matchStage_eq] at h
  split at h
  · simp at h
  · rename_i good hgood
    simp only [Option.some.injEq, Prod.mk.injEq] at h
    obtain ⟨h1, h2⟩ := h
    subst h2
    by_cases hk : alg.knMatchSupported = true
    · simp only [hk, if_true] at h1
      subst h1
      refine ⟨hgood, rfl, rfl, rfl, rfl, rfl, rfl, ?_, ?_⟩
      · intro hf
        rw [hk] at hf
        cases hf
      · intro _
        refine ⟨?_, rfl⟩
        rw [ratioTest_prior]
        simpa [stageMatches, hk] using hgood
    · have hk' : alg.knMatchSupported = false := by simpa using hk
      simp only [hk', Bool.false_eq_true, if_false] at h1
      subst h1
      refine ⟨hgood, rfl, rfl, rfl, rfl, rfl, rfl, fun _ => rfl, ?_⟩
      intro hf
      rw [hk'] at hf
      cases hf

/-- A run of `performComparison` on a test image with key points runs the matching
stage and then lines 229-272, and returns true. -/
theorem comparisonStep_inv (env : Env Image) (alg : FeatureAlgorithm Image Desc)
    (testImage : Image) (sourceKp : Keypoints) (sourceDesc : Desc)
    (s s' : FrameMatchingStatistics) (b : Bool)
    (hk : 0 < (alg.extractFeatures testImage).2.1.length)
    (h : comparisonStep env alg testImage sourceKp sourceDesc s = some (b, s')) :
    b = true
      ∧ ∃ s2 m, matchStage alg sourceDesc (alg.extractFeatures testImage).2.2
              { s with isValid := true, argumentValue := 0 } [] = some (s2, m)
          ∧ comparisonTail env sourceKp (alg.extractFeatures testImage).2.1 s2 m
              (env.getTickCount 0) (env.getTickCount 1) = some s' := by
  unfold comparisonStep at h
  simp only [gt_iff_lt, hk, decide_True, Bool.not_true, Bool.false_eq_true, if_false] at h
  split at h
  · simp at h
  · rename_i s2 matched hms
    split at h
    · simp at h
    · rename_i s'' ht
      simp only [Option.some.injEq, Prod.mk.injEq] at h
      obtain ⟨h1, h2⟩ := h
      subst h1 h2
      exact ⟨rfl, s2, matched, hms, ht⟩

theorem comparisonStep_noKeypoints (env : Env Image) (alg : FeatureAlgorithm Image Desc)
    (testImage : Image) (sourceKp : Keypoints) (sourceDesc : Desc)
    (s : FrameMatchingStatistics) (hk : (alg.extractFeatures testImage).2.1.length = 0) :
    comparisonStep env alg testImage sourceKp sourceDesc s
      = some (false, { s with isValid := false, argumentValue := 0 }) := by
  simp [comparisonStep, hk]

theorem comparisonStep_total (env : Env Image) (alg : FeatureAlgorithm Image Desc)
    (testImage : Image) (sourceKp : Keypoints) (sourceDesc : Desc)
    (s : FrameMatchingStatistics)
    (hc : CollaboratorsBehave env alg sourceKp sourceDesc testImage) :
    ∃ b s', comparisonStep env alg testImage sourceKp sourceDesc s = some (b, s') := by
  by_cases hk : 0 < (alg.extractFeatures testImage).2.1.length
  · obtain ⟨hknn, hfound⟩ := hc hk
    obtain ⟨ms, hms⟩ := stageMatches_total alg sourceDesc
      (alg.extractFeatures testImage).2.2 hknn
    obtain ⟨s', hs'⟩ := comparisonTail_total env sourceKp (alg.extractFeatures testImage).2.1
      (if alg.knMatchSupported then
        { ({ s with isValid := true, argumentValue := 0 } : FrameMatchingStatistics) with
          ratioTestFalseLevel :=
            (rejectionRate (alg.matchFeaturesKnn sourceDesc
              (alg.extractFeatures testImage).2.2 2).length ms.length) }
       else { s with isValid := true, argumentValue := 0 })
      ms (env.getTickCount 0) (env.getTickCount 1) (hfound ms hms)
    refine ⟨true, s', ?_⟩
    unfold comparisonStep
    simp only [gt_iff_lt, hk, decide_True, Bool.not_true, Bool.false_eq_true, if_false,
      matchStage_eq, hms, hs']
  · have hk0 : (alg.extractFeatures testImage).2.1.length = 0 := by omega
    exact ⟨_, _, comparisonStep_noKeypoints env alg testImage sourceKp sourceDesc s hk0⟩

theorem comparisonStep_argumentValue (env : Env Image) (alg : FeatureAlgorithm Image Desc)
    (testImage : Image) (sourceKp : Keypoints) (sourceDesc : Desc)
    (s s' : FrameMatchingStatistics) (b : Bool)
    (h : comparisonStep env alg testImage sourceKp sourceDesc s = some (b, s')) :
    s'.argumentValue = 0 := by
  by_cases hk : 0 < (alg.extractFeatures testImage).2.1.length
  · obtain ⟨-, s2, m, hms, ht⟩ := comparisonStep_inv env alg testImage sourceKp sourceDesc
      s s' b hk h
    obtain ⟨-, -, h2, -⟩ := matchStage_fields _ _ _ _ _ _ _ hms
    obtain ⟨-, h3, -⟩ := comparisonTail_fields _ _ _ _ _ _ _ _ ht
    rw [h3, h2]
  · have hk0 : (alg.extractFeatures testImage).2.1.length = 0 := by omega
    rw [comparisonStep_noKeypoints env alg testImage sourceKp sourceDesc s hk0] at h
    simp only [Option.some.injEq, Prod.mk.injEq] at h
    rw [← h.2]

theorem performComparison_eq (env : Env Image) (alg : FeatureAlgorithm Image Desc)
    (sourceImage testImage : Image) (stat : SingleRunStatistics) (imageName : String)
    (hex : (alg.extractFeatures (toGray env sourceImage)).1 = true) :
    performComparison env alg sourceImage testImage stat imageName
      = match comparisonStep env alg testImage
            (alg.extractFeatures (toGray env sourceImage)).2.1
            (alg.extractFeatures (toGray env sourceImage)).2.2 env.newStatistics with
        | none => none
        | some (result, s') => some (result, stat ++ [s']) := by
  unfold performComparison
  simp only [hex, Bool.not_true, Bool.false_eq_true, if_false, resize_succ_length]
  have h1 : (stat ++ [env.newStatistics])[stat.length]? = some env.newStatistics := by
    simp
  rw [h1]
  dsimp only
  rcases comparisonStep env alg testImage (alg.extractFeatures (toGray env sourceImage)).2.1
    (alg.extractFeatures (toGray env sourceImage)).2.2 env.newStatistics with _ | ⟨b, s'⟩
  · rfl
  · simp [List.set_append]

theorem estimationStep_of_stage (env : Env Image) (alg : FeatureAlgorithm Image Desc)
    (transformation : ImageTransformation Image) (gray : Image) (sourceKp : Keypoints)
    (sourceDesc : Desc) (i : Nat) (arg : ℚ) (s s2 s' : FrameMatchingStatistics)
    (matchList m : Matches)
    (hk : 0 < (alg.extractFeatures (transformation.transform arg gray)).2.1.length)
    (hms : matchStage alg sourceDesc
        (alg.extractFeatures (transformation.transform arg gray)).2.2
        { s with isValid := true, argumentValue := arg } matchList = some (s2, m))
    (ht : estimationTail env (transformation.getHomography arg gray) sourceKp
        (alg.extractFeatures (transformation.transform arg gray)).2.1 s2 m
        (env.getTickCount (2 * i)) (env.getTickCount (2 * i + 1)) = some s') :
    estimationStep env alg transformation gray sourceKp sourceDesc i arg s matchList
      = some (s', m) := by
  unfold estimationStep
  simp only [gt_iff_lt, hk, decide_True, Bool.not_true, Bool.false_eq_true, if_false, hms, ht]

theorem Flt.div_zero_ne_finite (a q : ℚ) : Flt.div a 0 ≠ Flt.finite q := by
  unfold Flt.div
  simp only [if_true]
  split
  · simp
  · split <;> simp

theorem rejectionRate_zero (m : Nat) (hm : m = 0) : rejectionRate 0 m = Flt.nan := by
  subst hm
  simp [rejectionRate, sizeSub, Flt.div]

theorem ratioTest_nil (tau : Flt) (prior : Matches) : ratioTest [] tau prior = some [] := by
  simp [ratioTest, ratioTestLoop]

/-- The two unguarded ratios after a matching stage that gave `(s2, m)` and a tail
that kept them. -/
theorem unguarded_ratios (alg : FeatureAlgorithm Image Desc) (sourceDesc resDesc : Desc)
    (s s2 s' : FrameMatchingStatistics) (prior m : Matches) (inliers : Nat)
    (hms : matchStage alg sourceDesc resDesc s prior = some (s2, m))
    (h1 : s'.correctMatchesPercent = Flt.div ((inliers : ℕ) : ℚ) ((m.length : ℕ) : ℚ))
    (h2 : s'.ratioTestFalseLevel = s2.ratioTestFalseLevel) :
    (m = [] → ∀ q, s'.correctMatchesPercent ≠ Flt.finite q)
      ∧ (alg.knMatchSupported = true →
          s'.ratioTestFalseLevel
              = rejectionRate (alg.matchFeaturesKnn sourceDesc resDesc 2).length m.length
            ∧ (alg.matchFeaturesKnn sourceDesc resDesc 2 = [] →
                s'.ratioTestFalseLevel = Flt.nan)) := by
  obtain ⟨-, -, -, -, -, -, -, -, hkn⟩ := matchStage_fields _ _ _ _ _ _ _ hms
  refine ⟨?_, ?_⟩
  · intro hm q
    rw [h1, hm]
    simpa using Flt.div_zero_ne_finite _ q
  · intro hknn
    obtain ⟨hr, hrate⟩ := hkn hknn
    refine ⟨by rw [h2, hrate], ?_⟩
    intro hnil
    rw [h2, hrate, hnil]
    rw [hnil, ratioTest_nil] at hr
    have hm : m = [] := (Option.some.inj hr).symm
    subst hm
    exact rejectionRate_zero _ rfl

end PipelineLemmas





/-! ## The driver program and the concrete setting: lemmas -/

section DriverLemmas

variable {Image Desc : Type}

/-- Every algorithm is run on the image at hand, whatever the image is. -/
theorem algorithmLoop_comparisons (env : Env Image) (refImage : Image)
    (algorithms : List (FeatureAlgorithm Image Desc)) (testImage : Image) (path : String)
    (st st' : MainState)
    (h : algorithmLoop env refImage testImage path algorithms st = some st') :
    st'.comparisons = st.comparisons ++ algorithms.map fun alg => (alg.name, path) := by
  induction algorithms generalizing st with
  | nil =>
    simp only [algorithmLoop, Option.some.injEq] at h
    subst h
    simp
  | cons alg rest ih =>
    simp only [algorithmLoop] at h
    split at h
    · simp at h
    · rw [ih _ h]
      simp

/-- A run of the image loop that ends normally has called `performComparison` for
every algorithm on every path, readable or not. -/
theorem imageLoop_comparisons (env : Env Image) (files : ImageFiles Image)
    (algorithms : List (FeatureAlgorithm Image Desc)) (refImage : Image)
    (paths : List String) (st st' : MainState)
    (h : imageLoop env files algorithms refImage paths st = some st') :
    st'.comparisons
      = st.comparisons
          ++ paths.flatMap fun path => algorithms.map fun alg => (alg.name, path) := by
  induction paths generalizing st with
  | nil =>
    simp only [imageLoop, Option.some.injEq] at h
    subst h
    simp
  | cons path rest ih =>
    simp only [imageLoop] at h
    split at h
    · simp at h
    · rename_i st2 hst2
      rw [ih _ h, algorithmLoop_comparisons env refImage algorithms _ path _ st2 hst2]
      by_cases he : files.empty (files.imread path) = true <;> simp [he]

end DriverLemmas

theorem floorSqrt_nonneg (q : ℚ) : 0 ≤ floorSqrt q := by
  unfold floorSqrt
  positivity

theorem floorSqrt_one : floorSqrt 1 = 1 := by
  have h1 : Nat.sqrt 1 = 1 := by norm_num [Nat.sqrt]
  simp [floorSqrt, h1]

theorem floorSqrt_nine : floorSqrt 9 = 3 := by
  have h9 : Nat.sqrt 9 = 3 := by norm_num [Nat.sqrt]
  have hn : (9 : ℚ).num = 9 := rfl
  have hd : (9 : ℚ).den = 1 := rfl
  simp [floorSqrt, hn, hd, h9]

/-- Two matches reprojected at distances 1 and 3 under the identity homography. -/
theorem sample_distances :
    reprojectedDistances sampleLib [⟨⟨0, 0⟩⟩, ⟨⟨0, 0⟩⟩] [⟨⟨1, 0⟩⟩, ⟨⟨0, 3⟩⟩]
      [sampleMatch 0 0 5, sampleMatch 1 1 7] 1 = some [1, 3] := by
  simp [reprojectedDistances, gatherPoints, elemAt, matInv, perspectiveTransform,
    perspectivePoint, pointDistance, sampleLib, sampleMatch]
  norm_num [floorSqrt_one, floorSqrt_nine]

/-- The collaborators of the concrete setting keep their contracts. -/
theorem sample_contract (arg : ℚ) (found : Bool) :
    CollaboratorsBehave (sampleEnv found) (sampleAlgorithm "BF" false [sampleMatch 0 0 1] [])
      sampleKeypoints () ((sampleTransformation [0, 1]).transform arg 1) := by
  unfold CollaboratorsBehave
  intro hk
  refine ⟨fun h => by simp [sampleAlgorithm] at h, ?_⟩
  intro ms hms _
  have hms2 : ms = [sampleMatch 0 0 1] := by
    simpa [stageMatches, sampleAlgorithm] using hms.symm
  subst hms2
  by_cases h0 : arg = 0
  · subst h0
    refine ⟨by simp [sampleEnv], ?_⟩
    intro c hc
    have hc2 : c = sampleMatch 0 0 1 := by simpa [sampleEnv] using hc
    subst hc2
    simp [inRange, sampleMatch, sampleAlgorithm, sampleTransformation, sampleKeypoints]
  · simp [sampleAlgorithm, sampleTransformation, h0] at hk

/-! ## Claims -/

variable {Image Desc : Type}

/-- C1: on 2-best pairs ordered by distance, `ratioTest` discards the prior content
of `goodMatches` and leaves exactly the `best` matches of the pairs whose ratio
`best.distance / second.distance` is at most the threshold, in input order; at the
threshold 0.75 a pair with distances (10, 20) is kept and one with (18, 20) is
rejected. -/
theorem ratioTest_keeps_exactly_unambiguous (pairs : List (DMatch × DMatch)) (tau : Flt)
    (prior : Matches) (h : ∀ p ∈ pairs, p.1.distance ≤ p.2.distance) :
    ratioTest (pairs.map fun p => [p.1, p.2]) tau prior
        = some ((pairs.filter
            (fun p => Flt.le (Flt.div p.1.distance p.2.distance) tau)).map Prod.fst)
      ∧ (∀ best second : DMatch, best.distance = 10 → second.distance = 20 →
          ratioTest [[best, second]] (Flt.finite (3 / 4)) prior = some [best])
      ∧ (∀ best second : DMatch, best.distance = 18 → second.distance = 20 →
          ratioTest [[best, second]] (Flt.finite (3 / 4)) prior = some []) := by
  refine ⟨?_, ?_, ?_⟩
  · have := ratioTestLoop_pairs pairs tau [] h
    simpa [ratioTest, ratioAccepts] using this
  · intro best second hb hs
    simp [ratioTest, ratioTestLoop, hb, hs, Flt.div, Flt.le]
    norm_num
  · intro best second hb hs
    simp [ratioTest, ratioTestLoop, hb, hs, Flt.div, Flt.le]
    norm_num

/-- Witness of C1: of the pairs (10, 20) and (18, 20) the ratio test at 0.75 keeps the
first best match only, and drops what the output list held. -/
theorem ratioTest_keeps_exactly_unambiguous_witness :
    ratioTest
        [[sampleMatch 0 0 10, sampleMatch 0 1 20], [sampleMatch 1 2 18, sampleMatch 1 3 20]]
        (Flt.finite (3 / 4)) [sampleMatch 5 5 1]
      = some [sampleMatch 0 0 10] := by
  have h := (ratioTest_keeps_exactly_unambiguous
    [(sampleMatch 0 0 10, sampleMatch 0 1 20), (sampleMatch 1 2 18, sampleMatch 1 3 20)]
    (Flt.finite (3 / 4)) [sampleMatch 5 5 1]
    (by simp [sampleMatch]; norm_num)).1
  simp [sampleMatch, Flt.div, Flt.le] at h ⊢
  norm_num at h
  exact h

/-- C10: `computeMatchesDistanceStatistics` returns false on every input: on an
empty match list it leaves `meanDistance` and `stdDev` as they were, and on a
non-empty one it writes the mean and the standard deviation of the match
distances and still returns false. -/
theorem computeMatchesDistanceStatistics_always_false (lib : Numerics)
    (matchList : Matches) (meanDistance stdDev : ℚ) :
    (computeMatchesDistanceStatistics lib matchList meanDistance stdDev).1 = false
      ∧ (matchList = [] →
          computeMatchesDistanceStatistics lib matchList meanDistance stdDev
            = (false, meanDistance, stdDev))
      ∧ (matchList ≠ [] →
          computeMatchesDistanceStatistics lib matchList meanDistance stdDev
            = (false,
               (matchList.map fun m => m.distance).sum / (matchList.length : ℚ),
               lib.sqrt
                 (((matchList.map fun m => m.distance).map fun d =>
                    (d - (matchList.map fun m => m.distance).sum
                          / (matchList.length : ℚ)) ^ 2).sum
                   / (matchList.length : ℚ)))) := by
  refine ⟨?_, ?_, ?_⟩
  · unfold computeMatchesDistanceStatistics
    split <;> rfl
  · intro h
    simp [computeMatchesDistanceStatistics, h]
  · intro h
    have h2 : matchList.isEmpty = false := by
      cases matchList with
      | nil => exact absurd rfl h
      | cons a l => rfl
    simp [computeMatchesDistanceStatistics, h2, meanStdDev]

/-- C5: on a non-empty match set with in-range key point indices
`computeReprojectionError` returns a 4-tuple (mean, stddev, max, min) with
`min ≤ mean ≤ max` and `stddev ≥ 0` (the C square root of a non-negative number
being non-negative); when the reprojected distances are 1 and 3 the mean is 2, the
minimum 1 and the maximum 3. -/
theorem computeReprojectionError_summary (lib : Numerics) (source query : Keypoints)
    (matchList : Matches) (homography : Mat3) (hne : matchList ≠ [])
    (hidx : ∀ m ∈ matchList, inRange source query m)
    (hsqrt : ∀ q, 0 ≤ q → 0 ≤ lib.sqrt q) :
    (∃ e, computeReprojectionError lib source query matchList homography = some e
        ∧ e.v3 ≤ e.v0 ∧ e.v0 ≤ e.v2 ∧ 0 ≤ e.v1)
      ∧ ((reprojectedDistances lib source query matchList homography = some [1, 3]
            ∨ reprojectedDistances lib source query matchList homography = some [3, 1]) →
          ∃ e, computeReprojectionError lib source query matchList homography = some e
            ∧ e.v0 = 2 ∧ e.v3 = 1 ∧ e.v2 = 3) := by
  obtain ⟨distances, hd, hlen⟩ :=
    reprojectedDistances_inRange lib source query matchList homography hidx
  have hpos : 0 < distances.length := by
    rw [hlen]
    exact List.length_pos.mpr hne
  refine ⟨?_, ?_⟩
  · cases distances with
    | nil => simp at hpos
    | cons d ds =>
      obtain ⟨h1, h2, h3⟩ := summary_of_cons lib d ds hsqrt
      exact ⟨_, computeReprojectionError_of_distances lib source query matchList
        homography d ds hne hd, h1, h2, h3⟩
  · rintro (h | h)
    · refine ⟨_, computeReprojectionError_of_distances lib source query matchList
        homography 1 [3] hne h, ?_, ?_, ?_⟩
      · simp [meanStdDev]
        norm_num
      · simp
      · simp
    · refine ⟨_, computeReprojectionError_of_distances lib source query matchList
        homography 3 [1] hne h, ?_, ?_, ?_⟩
      · simp [meanStdDev]
        norm_num
      · simp
      · simp

/-- Witness of C5: two matches reprojected at distances 1 and 3. -/
theorem computeReprojectionError_summary_witness :
    ∃ e, computeReprojectionError sampleLib [⟨⟨0, 0⟩⟩, ⟨⟨0, 0⟩⟩] [⟨⟨1, 0⟩⟩, ⟨⟨0, 3⟩⟩]
          [sampleMatch 0 0 5, sampleMatch 1 1 7] 1 = some e
      ∧ e.v0 = 2 ∧ e.v3 = 1 ∧ e.v2 = 3 :=
  (computeReprojectionError_summary sampleLib [⟨⟨0, 0⟩⟩, ⟨⟨0, 0⟩⟩] [⟨⟨1, 0⟩⟩, ⟨⟨0, 3⟩⟩]
    [sampleMatch 0 0 5, sampleMatch 1 1 7] 1 (by simp)
    (by simp [inRange, sampleMatch]) (fun q _ => floorSqrt_nonneg q)).2
    (Or.inl sample_distances)

/-- C7: when feature extraction succeeds on the source image and the collaborators
keep their contracts, `performEstimation` returns true and leaves exactly one
record per parameter value; record i carries `argumentValue = x[i]` and is valid
exactly when the transformed image has a key point and a homography is found,
whatever happens at the other indices. -/
theorem performEstimation_one_record_per_value (env : Env Image)
    (alg : FeatureAlgorithm Image Desc) (transformation : ImageTransformation Image)
    (sourceImage : Image) (stat : SingleRunStatistics)
    (hex : (alg.extractFeatures (toGray env sourceImage)).1 = true)
    (hc : ∀ arg ∈ transformation.getX,
      CollaboratorsBehave env alg (alg.extractFeatures (toGray env sourceImage)).2.1
        (alg.extractFeatures (toGray env sourceImage)).2.2
        (transformation.transform arg (toGray env sourceImage))) :
    ∃ out, performEstimation env alg transformation sourceImage stat = some (true, out)
      ∧ out.length = transformation.getX.length
      ∧ ∀ (i : Nat) (arg : ℚ), transformation.getX[i]? = some arg →
          ∃ r : FrameMatchingStatistics, out[i]? = some r ∧ r.argumentValue = arg
            ∧ (r.isValid = true ↔
                (0 < (alg.extractFeatures
                    (transformation.transform arg (toGray env sourceImage))).2.1.length
                  ∧ homographyFoundOn env alg
                      (alg.extractFeatures (toGray env sourceImage)).2.1
                      (alg.extractFeatures (toGray env sourceImage)).2.2
                      (transformation.transform arg (toGray env sourceImage)) = true)) := by
  obtain ⟨out, hout, hlen, -, hrec⟩ := estimationLoop_spec env alg transformation
    (toGray env sourceImage) (alg.extractFeatures (toGray env sourceImage)).2.1
    (alg.extractFeatures (toGray env sourceImage)).2.2 transformation.getX hc
    (List.range transformation.getX.length)
    (resize stat transformation.getX.length env.newStatistics) []
    (length_resize _ _ _) (fun i hi => List.mem_range.mp hi) (List.nodup_range _)
  refine ⟨out, ?_, hlen, ?_⟩
  · unfold performEstimation
    simp only [hex, Bool.not_true, Bool.false_eq_true, if_false, hout]
  · intro i arg hi
    have hlt : i < transformation.getX.length := by
      by_contra hge
      rw [List.getElem?_eq_none (by omega)] at hi
      cases hi
    obtain ⟨r, hr, ha, hv⟩ := hrec i (List.mem_range.mpr hlt) arg hi
    refine ⟨r, hr, ha, ?_⟩
    rw [hv]
    simp

/-- Witness of C7: a sweep over the values 0 and 1 whose second image has no key
point leaves a valid record for 0 and an invalid one for 1. -/
theorem performEstimation_one_record_per_value_witness :
    ∃ r0 r1, performEstimation (sampleEnv true)
          (sampleAlgorithm "BF" false [sampleMatch 0 0 1] [])
          (sampleTransformation [0, 1]) 1 [] = some (true, [r0, r1])
      ∧ r0.argumentValue = 0 ∧ r0.isValid = true
      ∧ r1.argumentValue = 1 ∧ r1.isValid = false := by
  have hg : toGray (sampleEnv true) 1 = 1 := by simp [toGray, sampleEnv]
  have hs : (sampleAlgorithm "BF" false [sampleMatch 0 0 1] []).extractFeatures 1
      = (true, sampleKeypoints, ()) := by simp [sampleAlgorithm]
  obtain ⟨out, hout, hlen, hrec⟩ := performEstimation_one_record_per_value (sampleEnv true)
    (sampleAlgorithm "BF" false [sampleMatch 0 0 1] []) (sampleTransformation [0, 1]) 1 []
    (by rw [hg, hs])
    (by
      intro arg _
      rw [hg, hs]
      exact sample_contract arg true)
  rw [hg, hs] at hrec
  obtain ⟨r0, h0, a0, v0⟩ := hrec 0 0 (by simp [sampleTransformation])
  obtain ⟨r1, h1, a1, v1⟩ := hrec 1 1 (by simp [sampleTransformation])
  have hl : out.length = 2 := by simpa [sampleTransformation] using hlen
  have hout2 : out = [r0, r1] := by
    rcases out with _ | ⟨a, _ | ⟨b, _ | ⟨c, t⟩⟩⟩
    · simp at hl
    · simp at hl
    · simp only [List.getElem?_cons_zero, List.getElem?_cons_succ, Option.some.injEq] at h0 h1
      rw [h0, h1]
    · simp at hl
  subst hout2
  refine ⟨r0, r1, hout, a0, ?_, a1, ?_⟩
  · rw [v0]
    simp [sampleAlgorithm, sampleTransformation, sampleEnv, sampleKeypoints,
      homographyFoundOn, stageMatches]
  · cases hv : r1.isValid
    · rfl
    · rw [v1] at hv
      simp [sampleAlgorithm, sampleTransformation] at hv

/-- C9: `performComparison` only appends to `stat`: when extraction on the source
image fails it returns false and leaves `stat` as it was; otherwise every call
that returns leaves `stat` followed by one new record with `argumentValue = 0`,
and it does return when the collaborators keep their contracts; when the test
image has no key point the call returns false and the new record is invalid. -/
theorem performComparison_append_only (env : Env Image)
    (alg : FeatureAlgorithm Image Desc) (sourceImage testImage : Image)
    (stat : SingleRunStatistics) (imageName : String) :
    ((alg.extractFeatures (toGray env sourceImage)).1 = false →
        performComparison env alg sourceImage testImage stat imageName = some (false, stat))
      ∧ ((alg.extractFeatures (toGray env sourceImage)).1 = true →
          (alg.extractFeatures testImage).2.1.length = 0 →
          performComparison env alg sourceImage testImage stat imageName
            = some (false,
                stat ++ [{ env.newStatistics with isValid := false, argumentValue := 0 }]))
      ∧ (∀ b out, (alg.extractFeatures (toGray env sourceImage)).1 = true →
          performComparison env alg sourceImage testImage stat imageName = some (b, out) →
          ∃ r, out = stat ++ [r] ∧ r.argumentValue = 0)
      ∧ ((alg.extractFeatures (toGray env sourceImage)).1 = true →
          CollaboratorsBehave env alg (alg.extractFeatures (toGray env sourceImage)).2.1
            (alg.extractFeatures (toGray env sourceImage)).2.2 testImage →
          ∃ b r, performComparison env alg sourceImage testImage stat imageName
              = some (b, stat ++ [r])
            ∧ r.argumentValue = 0) := by
  refine ⟨?_, ?_, ?_, ?_⟩
  · intro hex
    simp [performComparison, hex]
  · intro hex hk
    rw [performComparison_eq env alg sourceImage testImage stat imageName hex,
      comparisonStep_noKeypoints env alg testImage _ _ _ hk]
  · intro b out hex h
    rw [performComparison_eq env alg sourceImage testImage stat imageName hex] at h
    split at h
    · simp at h
    · rename_i result s' hcs
      simp only [Option.some.injEq, Prod.mk.injEq] at h
      exact ⟨s', h.2.symm, comparisonStep_argumentValue env alg testImage _ _ _ _ _ hcs⟩
  · intro hex hc
    obtain ⟨b, s', hcs⟩ := comparisonStep_total env alg testImage _ _ env.newStatistics hc
    refine ⟨b, s', ?_, comparisonStep_argumentValue env alg testImage _ _ _ _ _ hcs⟩
    rw [performComparison_eq env alg sourceImage testImage stat imageName hex, hcs]

/-- C6 (amended): a sweep value whose transformed image has no key point is
short-circuited and only `isValid` and `argumentValue` of its record are written;
a value for which no homography is found still has `totalKeypoints`,
`consumedTimeMs`, `percentOfMatches`, `correctMatchesPercent` (and, for a
knn-capable algorithm, `ratioTestFalseLevel`) written besides these two, while
`meanDistance`, `stdDevDistance`, `reprojectionError` and `homographyError` stay as
they were. -/
theorem invalid_run_written_fields (env : Env Image) (alg : FeatureAlgorithm Image Desc)
    (transformation : ImageTransformation Image) (gray : Image) (sourceKp : Keypoints)
    (sourceDesc : Desc) (i : Nat) (arg : ℚ) (s : FrameMatchingStatistics)
    (matchList : Matches) :
    ((alg.extractFeatures (transformation.transform arg gray)).2.1.length = 0 →
        estimationStep env alg transformation gray sourceKp sourceDesc i arg s matchList
          = some ({ s with isValid := false, argumentValue := arg }, matchList))
      ∧ (∀ s2 m, 0 < (alg.extractFeatures (transformation.transform arg gray)).2.1.length →
          matchStage alg sourceDesc
              (alg.extractFeatures (transformation.transform arg gray)).2.2
              { s with isValid := true, argumentValue := arg } matchList = some (s2, m) →
          (env.findHomography sourceKp
              (alg.extractFeatures (transformation.transform arg gray)).2.1 m).1 = false →
          ∃ s', estimationStep env alg transformation gray sourceKp sourceDesc i arg s
                matchList = some (s', m)
            ∧ s'.isValid = false ∧ s'.argumentValue = arg
            ∧ s'.totalKeypoints
                = (alg.extractFeatures (transformation.transform arg gray)).2.1.length
            ∧ s'.consumedTimeMs
                = ((env.getTickCount (2 * i + 1) - env.getTickCount (2 * i) : Int) : ℚ)
                    * (1000 / env.getTickFrequency)
            ∧ s'.percentOfMatches
                = Flt.div ((m.length : ℕ) : ℚ)
                    ((min sourceKp.length
                      (alg.extractFeatures
                        (transformation.transform arg gray)).2.1.length : ℕ) : ℚ)
            ∧ s'.correctMatchesPercent
                = Flt.div
                    (((env.findHomography sourceKp
                      (alg.extractFeatures
                        (transformation.transform arg gray)).2.1 m).2.1.length : ℕ) : ℚ)
                    ((m.length : ℕ) : ℚ)
            ∧ (alg.knMatchSupported = true →
                s'.ratioTestFalseLevel
                  = rejectionRate
                      (alg.matchFeaturesKnn sourceDesc
                        (alg.extractFeatures
                          (transformation.transform arg gray)).2.2 2).length m.length)
            ∧ (alg.knMatchSupported = false → s'.ratioTestFalseLevel = s.ratioTestFalseLevel)
            ∧ s'.meanDistance = s.meanDistance ∧ s'.stdDevDistance = s.stdDevDistance
            ∧ s'.reprojectionError = s.reprojectionError
            ∧ s'.homographyError = s.homographyError) := by
  refine ⟨estimationStep_noKeypoints env alg transformation gray sourceKp sourceDesc i arg s
    matchList, ?_⟩
  intro s2 m hk hms hf
  obtain ⟨s', ht⟩ := estimationTail_total env (transformation.getHomography arg gray) sourceKp
    (alg.extractFeatures (transformation.transform arg gray)).2.1 s2 m
    (env.getTickCount (2 * i)) (env.getTickCount (2 * i + 1))
    (fun h => by rw [hf] at h; cases h)
  obtain ⟨t1, t2, t3, t4, t5, t6, t7, t8, -⟩ := estimationTail_fields _ _ _ _ _ _ _ _ _ ht
  obtain ⟨-, -, m2, m3, m4, m5, m6, m7, m8⟩ := matchStage_fields _ _ _ _ _ _ _ hms
  obtain ⟨u1, u2, u3, u4⟩ := t8 hf
  refine ⟨s', estimationStep_of_stage env alg transformation gray sourceKp sourceDesc i arg
    s s2 s' matchList m hk hms ht, ?_, ?_, t3, t4, t5, t6, ?_, ?_, ?_, ?_, ?_, ?_⟩
  · rw [t1, hf]
  · rw [t2, m2]
  · intro hknn
    rw [t7, (m8 hknn).2]
  · intro hknn
    rw [t7, m7 hknn]
  · rw [u1, m3]
  · rw [u2, m4]
  · rw [u3, m5]
  · rw [u4, m6]

/-- C3 (amended): the ratio divisions are not guarded.  In every iteration of
`performEstimation` and every run of `performComparison` whose image has a key
point, `correctMatchesPercent` is the division of the inlier count by the match
count and, for a knn-capable algorithm, `ratioTestFalseLevel` is the rejection
rate over the knn pair count, whatever these counts are: with an empty match set
`correctMatchesPercent` is not a finite number, and with an empty knn pair set
`ratioTestFalseLevel` is the NaN of 0/0. -/
theorem ratio_divisions_unguarded (env : Env Image) (alg : FeatureAlgorithm Image Desc)
    (sourceKp : Keypoints) (sourceDesc : Desc) (image : Image) :
    (∀ (transformation : ImageTransformation Image) gray i arg s matchList s' m,
        transformation.transform arg gray = image →
        0 < (alg.extractFeatures image).2.1.length →
        estimationStep env alg transformation gray sourceKp sourceDesc i arg s matchList
            = some (s', m) →
        s'.correctMatchesPercent
            = Flt.div
                (((env.findHomography sourceKp
                    (alg.extractFeatures image).2.1 m).2.1.length : ℕ) : ℚ)
                ((m.length : ℕ) : ℚ)
          ∧ (m = [] → ∀ q, s'.correctMatchesPercent ≠ Flt.finite q)
          ∧ (alg.knMatchSupported = true →
              s'.ratioTestFalseLevel
                  = rejectionRate
                      (alg.matchFeaturesKnn sourceDesc
                        (alg.extractFeatures image).2.2 2).length m.length
                ∧ (alg.matchFeaturesKnn sourceDesc (alg.extractFeatures image).2.2 2 = [] →
                    s'.ratioTestFalseLevel = Flt.nan)))
      ∧ (∀ s b s', 0 < (alg.extractFeatures image).2.1.length →
          comparisonStep env alg image sourceKp sourceDesc s = some (b, s') →
          ∃ m, stageMatches alg sourceDesc (alg.extractFeatures image).2.2 = some m
            ∧ s'.correctMatchesPercent
                = Flt.div
                    (((env.findHomography sourceKp
                        (alg.extractFeatures image).2.1 m).2.1.length : ℕ) : ℚ)
                    ((m.length : ℕ) : ℚ)
            ∧ (m = [] → ∀ q, s'.correctMatchesPercent ≠ Flt.finite q)
            ∧ (alg.knMatchSupported = true →
                s'.ratioTestFalseLevel
                    = rejectionRate
                        (alg.matchFeaturesKnn sourceDesc
                          (alg.extractFeatures image).2.2 2).length m.length
                  ∧ (alg.matchFeaturesKnn sourceDesc
                        (alg.extractFeatures image).2.2 2 = [] →
                      s'.ratioTestFalseLevel = Flt.nan))) := by
  refine ⟨?_, ?_⟩
  · intro transformation gray i arg s matchList s' m himg hk h
    subst himg
    obtain ⟨s2, hms, ht⟩ := estimationStep_inv env alg transformation gray sourceKp sourceDesc
      i arg s s' matchList m hk h
    obtain ⟨-, -, -, -, -, t6, t7, -⟩ := estimationTail_fields _ _ _ _ _ _ _ _ _ ht
    obtain ⟨u1, u2⟩ := unguarded_ratios alg sourceDesc _ _ s2 s' matchList m _ hms t6 t7
    exact ⟨t6, u1, u2⟩
  · intro s b s' hk h
    obtain ⟨-, s2, m, hms, ht⟩ := comparisonStep_inv env alg image sourceKp sourceDesc
      s s' b hk h
    obtain ⟨-, -, t3, t4⟩ := comparisonTail_fields _ _ _ _ _ _ _ _ ht
    obtain ⟨u1, u2⟩ := unguarded_ratios alg sourceDesc _ _ s2 s' [] m _ hms t3 t4
    exact ⟨m, (matchStage_fields _ _ _ _ _ _ _ hms).1, t3, u1, u2⟩

/-- Counterexample to C6 as stated: a sweep value for which no homography is found
(the record comes out invalid) has `totalKeypoints`, `consumedTimeMs`,
`percentOfMatches` and `correctMatchesPercent` of its record overwritten. -/
theorem invalid_run_without_homography_writes_statistics :
    performEstimation (sampleEnv false) (sampleAlgorithm "BF" false [sampleMatch 0 0 1] [])
        (sampleTransformation [0]) 1 [zeroStatistics]
      = some (true, [{ zeroStatistics with
          isValid := false, argumentValue := 0,
          totalKeypoints := 4, consumedTimeMs := 1, percentOfMatches := Flt.finite (1 / 4),
          correctMatchesPercent := Flt.finite 1 }])
    ∧ zeroStatistics.totalKeypoints ≠ 4 ∧ zeroStatistics.consumedTimeMs ≠ 1
    ∧ zeroStatistics.percentOfMatches ≠ Flt.finite (1 / 4)
    ∧ zeroStatistics.correctMatchesPercent ≠ Flt.finite 1 := by
  refine ⟨?_, ?_, ?_, ?_, ?_⟩
  · simp [performEstimation, estimationLoop, estimationStep, estimationTail, matchStage,
      simpleStat, Flt.div, resize, toGray,
      sampleEnv, sampleAlgorithm, sampleTransformation, sampleKeypoints, zeroStatistics,
      List.range, List.range.loop]
  · simp [zeroStatistics]
  · simp [zeroStatistics]
  · simp [zeroStatistics]
  · simp [zeroStatistics]

/-- Counterexample to C3 as stated: with a knn matcher that returns no pair, both
`performEstimation` and `performComparison` evaluate the two ratios over empty sets
and record the NaN of 0/0 in `ratioTestFalseLevel` and `correctMatchesPercent`. -/
theorem ratio_divisions_reach_zero_denominator :
    (sampleAlgorithm "KNN" true [] []).matchFeaturesKnn () () 2 = []
    ∧ performEstimation (sampleEnv false) (sampleAlgorithm "KNN" true [] [])
        (sampleTransformation [0]) 1 []
      = some (true, [{ zeroStatistics with
          totalKeypoints := 4, consumedTimeMs := 1, percentOfMatches := Flt.finite 0,
          correctMatchesPercent := Flt.div 0 0, ratioTestFalseLevel := Flt.div 0 0 }])
    ∧ performComparison (sampleEnv false) (sampleAlgorithm "KNN" true [] []) 1 1 [] "good.png"
      = some (true, [{ zeroStatistics with
          totalKeypoints := 4, consumedTimeMs := 1, percentOfMatches := Flt.finite 0,
          correctMatchesPercent := Flt.div 0 0, ratioTestFalseLevel := Flt.div 0 0 }])
    ∧ Flt.div 0 0 = Flt.nan := by
  refine ⟨rfl, ?_, ?_, ?_⟩
  · simp [performEstimation, estimationLoop, estimationStep, estimationTail, matchStage,
      simpleStat, ratioTest, ratioTestLoop, rejectionRate, sizeSub, Flt.div, resize, toGray,
      sampleEnv, sampleAlgorithm, sampleTransformation, sampleKeypoints, zeroStatistics,
      List.range, List.range.loop]
  · simp [performComparison, comparisonStep, comparisonTail, matchStage, simpleStat,
      computeMatchesDistanceStatistics, ratioTest, ratioTestLoop, rejectionRate, sizeSub,
      Flt.div, resize, toGray, sampleEnv, sampleAlgorithm, sampleKeypoints, zeroStatistics]
  · simp [Flt.div]

/-- C8 (the code at the failing input): for the arguments `prog ref.png bad.png`,
where `bad.png` fails to decode, `main` prints the warning and then still calls
`performComparison` for each of the two algorithms on that image, which leaves a
statistics entry for each. -/
theorem main_compares_unreadable_image :
    main (sampleEnv true) sampleFiles
        [sampleAlgorithm "SURF_BF" false [] [], sampleAlgorithm "SURF_FLANN_KNN" true [] []]
        ["prog", "ref.png", "bad.png"]
      = some
          { out := [Output.cannotRead "bad.png", Output.testing "SURF_BF", Output.done,
              Output.testing "SURF_FLANN_KNN", Output.done]
            fullStat := [(("SURF_BF", "bad.png"), []), (("SURF_FLANN_KNN", "bad.png"), [])]
            comparisons := [("SURF_BF", "bad.png"), ("SURF_FLANN_KNN", "bad.png")] }
    ∧ sampleFiles.empty (sampleFiles.imread "bad.png") = true := by
  constructor
  · simp [main, imageLoop, algorithmLoop, performComparison, getStatistics, putStatistics,
      toGray, sampleEnv, sampleFiles, sampleAlgorithm]
    rfl
  · simp [sampleFiles]

end FeaturesComparison
